import Mathlib

/-!
# Game of Life engine: shallow embedding and verification

Shallow embedding of the simulation engine (`Game` class in
`src/hooks/useGame.ts` / `src/core/game.ts`): a finite square grid of cells
with synchronous Conway-rule stepping, an idle/running lifecycle, and typed
change notifications.  JavaScript objects become Lean structures; the
mutable `Game` instance becomes an explicit `GameState` threaded through the
operations; each method returns the new state together with the list of
events it emitted, and a method that can `throw` returns `Except GameError`.
JavaScript numbers holding grid coordinates and sizes are modelled as `Int`
(truncated division `Math.trunc(a/b)` is `Int.tdiv`, the JS `%` remainder is
`Int.tmod`); the speed is modelled as `Rat`.  `setTimeout`/`clearTimeout`
scheduling is modelled by a `timerArmed` flag: `nextGeneration` arms the
timer, `stop` disarms it, and the scheduled callback (`fireTimer`) runs only
while the timer is armed.
-/

namespace Game

/-- A grid cell, as in the source: `{ id, line, column, isAlive }`. -/
structure Cell where
  id : Nat
  line : Int
  column : Int
  isAlive : Bool
  deriving DecidableEq, Repr

/-- The error taxonomy: invalid size/speed argument, malformed snapshot. -/
inductive GameError where
  | invalidArgument
  | invalidFormat
  deriving DecidableEq, Repr

/-- The events the engine emits on its `EventEmitter` channels. -/
inductive GameEvent where
  | started
  | stopped
  | resetEvt
  | speedChanged (value : Rat)
  | gridChanged (size : Int) (cells : List Cell)
  | cellChanged (cell : Cell)
  | newGeneration (generationNumber : Nat) (bornCells killedCells : List Cell)
  deriving DecidableEq, Repr

/-- The engine's mutable fields.  `timerArmed` models whether a
`setTimeout` callback is currently pending (`nextGenerationTimerId >= 0`
with a live timer in the source; timer ids themselves are abstracted). -/
structure GameState where
  cells : List Cell
  size : Int
  speed : Rat
  generationNumber : Nat
  isRunning : Bool
  timerArmed : Bool
  deriving DecidableEq, Repr

def MinSize : Int := 3

def MaxSize : Int := 1024

def DefaultSize : Int := 128

def MinSpeed : Rat := 1

def MaxSpeed : Rat := 100

/-- The 8 Moore-neighbourhood offsets, in source order. -/
def NeighbourOffsets : List (Int × Int) :=
  [(-1, 0), (0, 1), (1, 0), (0, -1), (-1, 1), (1, 1), (1, -1), (-1, -1)]

/-- `initCells`: the fresh all-dead grid for a given size.  The source loop
runs `id` from `0` while `id < size * size`, with
`column = id % size` and `line = Math.trunc(id / size)`. -/
def initCells (size : Int) : List Cell :=
  (List.range (size * size).toNat).map fun id =>
    { id := id
      column := (id : Int).tmod size
      line := (id : Int).tdiv size
      isAlive := false }

/-- The constructor: `new Game(size?)`. -/
def new (size? : Option Int) : GameState :=
  let size := size?.getD DefaultSize
  { cells := initCells size
    size := size
    speed := MinSpeed
    generationNumber := 0
    isRunning := false
    timerArmed := false }

/-- `isValidPosition(line, column)`. -/
def isValidPosition (g : GameState) (line column : Int) : Bool :=
  line ≥ 0 && column ≥ 0 && line < g.size && column < g.size

/-- `getCell(line, column)`: `this.cells[this.size * line + column]`; the
JS array lookup yields `undefined` out of range, modelled by `Option`. -/
def getCell (g : GameState) (line column : Int) : Option Cell :=
  g.cells.get? (g.size * line + column).toNat

/-- `countAliveNeighbours(cell)`: fold over the 8 offsets counting
neighbours at valid positions that are alive.  (For an ill-formed grid the
source would fault reading `undefined.isAlive`; the `none` branch is
unreachable on well-formed grids, where `getCell` succeeds at every valid
position.) -/
def countAliveNeighbours (g : GameState) (cell : Cell) : Nat :=
  NeighbourOffsets.foldl
    (fun count off =>
      let line := cell.line + off.1
      let column := cell.column + off.2
      if isValidPosition g line column then
        match getCell g line column with
        | some neighbourCell => if neighbourCell.isAlive then count + 1 else count
        | none => count
      else count)
    0

/-- The per-cell transition inside `nextGeneration`'s `map`: an alive cell
with fewer than 2 or more than 3 alive neighbours dies, a dead cell with
exactly 3 alive neighbours is born, every other cell is returned as is.
Neighbour counts read `g`, the pre-step state (the source assigns
`this.cells` only after the whole `map` has finished). -/
def stepCell (g : GameState) (cell : Cell) : Cell :=
  let aliveNeighboursCount := countAliveNeighbours g cell
  if cell.isAlive then
    if aliveNeighboursCount < 2 || aliveNeighboursCount > 3 then
      { cell with isAlive := false }
    else cell
  else
    if aliveNeighboursCount == 3 then
      { cell with isAlive := true }
    else cell

/-- `nextGeneration()`: bump the counter, map every cell through the rules
against the pre-step grid, emit `onNewGeneration` with the born and killed
cells in grid order, and re-arm the timer (`setTimeout`). -/
def nextGeneration (g : GameState) : GameState × List GameEvent :=
  let gen := g.generationNumber + 1
  let newCells := g.cells.map (stepCell g)
  let bornCells := g.cells.filterMap fun cell =>
    if !cell.isAlive && countAliveNeighbours g cell == 3 then
      some { cell with isAlive := true }
    else none
  let killedCells := g.cells.filterMap fun cell =>
    if cell.isAlive && (countAliveNeighbours g cell < 2 || countAliveNeighbours g cell > 3) then
      some { cell with isAlive := false }
    else none
  ({ g with cells := newCells, generationNumber := gen, timerArmed := true },
   [GameEvent.newGeneration gen bornCells killedCells])

/-- `start()`: no-op while running; otherwise set `isRunning`, emit
`onStart`, and run the first `nextGeneration` immediately. -/
def start (g : GameState) : GameState × List GameEvent :=
  if g.isRunning then (g, [])
  else
    let g1 := { g with isRunning := true }
    let stepped := nextGeneration g1
    (stepped.1, GameEvent.started :: stepped.2)

/-- `stop()`: no-op while idle; otherwise clear `isRunning`, cancel the
pending timer (`clearTimeout`), and emit `onStop`. -/
def stop (g : GameState) : GameState × List GameEvent :=
  if !g.isRunning then (g, [])
  else ({ g with isRunning := false, timerArmed := false }, [GameEvent.stopped])

/-- The scheduled callback armed by `nextGeneration`: it runs another
generation only if the timer is still pending (a cleared timer never
fires). -/
def fireTimer (g : GameState) : GameState × List GameEvent :=
  if g.timerArmed then nextGeneration g else (g, [])

/-- `reset(size?)`: no-op while running; a *truthy* (nonzero) size outside
`[MinSize, MaxSize]` throws; otherwise `this.size = size ?? this.size`
(nullish coalescing: `some 0` yields size `0`), the grid is rebuilt all
dead, the counter is zeroed, and `onReset` then `onGridChanged` fire. -/
def reset (g : GameState) (size? : Option Int) : Except GameError (GameState × List GameEvent) :=
  if g.isRunning then .ok (g, [])
  else if (match size? with
           | some size => size ≠ 0 && (size < MinSize || size > MaxSize)
           | none => false) then
    .error .invalidArgument
  else
    let size := match size? with
      | some size => size
      | none => g.size
    let cells := initCells size
    .ok ({ g with size := size, cells := cells, generationNumber := 0 },
         [GameEvent.resetEvt, GameEvent.gridChanged size cells])

/-- `randomize()`: no-op while running; otherwise every cell's `isAlive`
is overwritten from the random source (modelled as an oracle giving the
draw for each cell index), then `onGridChanged` fires. -/
def randomize (g : GameState) (rnd : Nat → Bool) : GameState × List GameEvent :=
  if g.isRunning then (g, [])
  else
    let cells := (List.range g.cells.length).zipWith
      (fun i cell => { cell with isAlive := rnd i }) g.cells
    ({ g with cells := cells }, [GameEvent.gridChanged g.size cells])

/-- `toggleCell(line, column)`: no-op while running or at an invalid
position; otherwise flip `isAlive` of the cell at `size * line + column`
and emit `onCellChanged` with the flipped cell. -/
def toggleCell (g : GameState) (line column : Int) : GameState × List GameEvent :=
  if g.isRunning then (g, [])
  else if !isValidPosition g line column then (g, [])
  else
    match getCell g line column with
    | some cell =>
      let cell' := { cell with isAlive := !cell.isAlive }
      ({ g with cells := g.cells.set (g.size * line + column).toNat cell' },
       [GameEvent.cellChanged cell'])
    | none => (g, [])

/-- `changeSpeed(newSpeed)`: throws outside `[MinSpeed, MaxSpeed]`,
otherwise sets the speed and emits `onSpeedChanged`; never guarded by
`isRunning`. -/
def changeSpeed (g : GameState) (newSpeed : Rat) : Except GameError (GameState × List GameEvent) :=
  if newSpeed < MinSpeed || newSpeed > MaxSpeed then .error .invalidArgument
  else .ok ({ g with speed := newSpeed }, [GameEvent.speedChanged newSpeed])

/-- The parsed snapshot record at the `loadFromJson` boundary: each field
is `none` when absent from the parsed JSON object (`'size' in data`). -/
structure SnapshotData where
  sizeField : Option Int
  cellsField : Option (List Cell)
  deriving DecidableEq, Repr

/-- `exportToJson()`: serializes `{ size, cells }`; the JSON string
encoding is abstracted to the structured record it denotes. -/
def exportToJson (g : GameState) : SnapshotData :=
  { sizeField := some g.size, cellsField := some g.cells }

/-- `loadFromJson(json)`: no-op while running; throws when `cells` or
`size` is missing; otherwise adopts the snapshot's size and cells verbatim
(no bounds re-validation), zeroes the counter, and emits `onReset` then
`onGridChanged`. -/
def loadFromJson (g : GameState) (data : SnapshotData) :
    Except GameError (GameState × List GameEvent) :=
  if g.isRunning then .ok (g, [])
  else
    match data.cellsField, data.sizeField with
    | some cells, some size =>
      .ok ({ g with size := size, cells := cells, generationNumber := 0 },
           [GameEvent.resetEvt, GameEvent.gridChanged size cells])
    | _, _ => .error .invalidFormat

/-! ## Spec-side definitions

The definitions below are written from the specification's words, to be
compared with the source-derived definitions above. -/

/-- Grid well-formedness (the invariant of §3 of the spec, maintained by the
constructor, `reset` and stepping): the grid holds `size * size` cells and
the cell stored at index `i` carries line `i / size` and column
`i % size`. -/
def wfCells (size : Int) (cells : List Cell) : Bool :=
  cells.length == (size * size).toNat &&
  (List.range cells.length).all fun i =>
    match cells.get? i with
    | some cell => cell.line == (i : Int).tdiv size && cell.column == (i : Int).tmod size
    | none => false

/-- A well-formed engine state. -/
def WF (g : GameState) : Prop :=
  wfCells g.size g.cells = true

instance (g : GameState) : Decidable (WF g) :=
  inferInstanceAs (Decidable (wfCells g.size g.cells = true))

/-- Spec-side lookup: whether the grid's cell *with the given line and
column* is alive (position-based, independent of storage order). -/
def aliveAt (g : GameState) (line column : Int) : Bool :=
  match g.cells.find? (fun cell => cell.line == line && cell.column == column) with
  | some cell => cell.isAlive
  | none => false

/-- Spec-side neighbour count: the number of the 8 Moore offsets whose
position is in bounds and whose cell is alive in `g` (the pre-step
snapshot). -/
def mooreAliveCount (g : GameState) (cell : Cell) : Nat :=
  (NeighbourOffsets.filter fun off =>
    isValidPosition g (cell.line + off.1) (cell.column + off.2) &&
    aliveAt g (cell.line + off.1) (cell.column + off.2)).length

/-- The classic rules, from the spec's words: an alive cell with neighbour
count `< 2` or `> 3` dies, a dead cell with count exactly `3` is born,
every other cell keeps its state. -/
def specLifeRule (alive : Bool) (count : Nat) : Bool :=
  if alive then
    if count < 2 || count > 3 then false else true
  else
    if count == 3 then true else false

/-- Conformance of one generation advance to the spec: the counter is
incremented by exactly 1, the number of cells is preserved, and each cell
keeps its `id`, `line` and `column` while its alive flag becomes the
classic rule applied to its pre-step flag and pre-step neighbour count. -/
def ClassicStep (g : GameState) : Prop :=
  (nextGeneration g).1.generationNumber = g.generationNumber + 1 ∧
  (nextGeneration g).1.cells.length = g.cells.length ∧
  ∀ i (h : i < g.cells.length) (h' : i < (nextGeneration g).1.cells.length),
    ((nextGeneration g).1.cells.get ⟨i, h'⟩).id = (g.cells.get ⟨i, h⟩).id ∧
    ((nextGeneration g).1.cells.get ⟨i, h'⟩).line = (g.cells.get ⟨i, h⟩).line ∧
    ((nextGeneration g).1.cells.get ⟨i, h'⟩).column = (g.cells.get ⟨i, h⟩).column ∧
    ((nextGeneration g).1.cells.get ⟨i, h'⟩).isAlive =
      specLifeRule (g.cells.get ⟨i, h⟩).isAlive (mooreAliveCount g (g.cells.get ⟨i, h⟩))

/-- A freshly rebuilt grid as the spec describes it: exactly `size * size`
cells, all dead, ids `0 .. size*size - 1` in order, with
`row = id / size` (integer division) and `column = id % size`. -/
def FreshGrid (size : Int) (cells : List Cell) : Prop :=
  cells.length = (size * size).toNat ∧
  ∀ i (h : i < cells.length),
    (cells.get ⟨i, h⟩).id = i ∧
    (cells.get ⟨i, h⟩).line = ((i / size.toNat : Nat) : Int) ∧
    (cells.get ⟨i, h⟩).column = ((i % size.toNat : Nat) : Int) ∧
    (cells.get ⟨i, h⟩).isAlive = false

/-! ## Concrete states used as witnesses -/

/-- A fresh idle 3×3 engine. -/
def game3 : GameState := Game.new (some 3)

/-- The 3×3 grid of the repository's own test: cells `(0,0)`, `(0,2)` and
`(1,2)` toggled alive. -/
def game3Pattern : GameState :=
  (toggleCell (toggleCell (toggleCell game3 0 0).1 0 2).1 1 2).1

/-- A running engine with a pending timer, as after `start()`. -/
def runningGame3 : GameState :=
  { game3Pattern with isRunning := true, timerArmed := true, generationNumber := 1 }

/-! ## Helper lemmas -/

theorem foldl_count_eq_filter_length {α : Type} (p : α → Bool) :
    ∀ (l : List α) (n : Nat),
      l.foldl (fun count a => if p a then count + 1 else count) n =
        n + (l.filter p).length := by
  intro l
  induction l with
  | nil => intro n; simp
  | cons a l ih =>
    intro n
    by_cases h : p a = true
    · simp [List.foldl_cons, h, ih, List.filter_cons]
      omega
    · simp [List.foldl_cons, h, ih, List.filter_cons]

theorem foldl_congr_of_mem {α β : Type} (l : List α) (f f' : β → α → β)
    (h : ∀ b a, a ∈ l → f b a = f' b a) : ∀ b, l.foldl f b = l.foldl f' b := by
  induction l with
  | nil => intro b; rfl
  | cons a l ih =>
    intro b
    simp only [List.foldl_cons]
    rw [h b a (List.mem_cons_self a l)]
    exact ih (fun b x hx => h b x (List.mem_cons_of_mem _ hx)) _

theorem find?_eq_of_unique_index {α : Type} {p : α → Bool} :
    ∀ {l : List α} {i : Nat} {a : α},
      l.get? i = some a → p a = true →
      (∀ j b, l.get? j = some b → p b = true → j = i) →
      l.find? p = some a := by
  intro l
  induction l with
  | nil => intro i a ha _ _; simp at ha
  | cons x xs ih =>
    intro i a ha hp huniq
    by_cases hx : p x = true
    · have h0 : (0 : Nat) = i := huniq 0 x rfl hx
      rw [← h0] at ha
      simp only [List.get?_cons_zero, Option.some.injEq] at ha
      rw [List.find?_cons_of_pos _ hx, ha]
    · have hi : i ≠ 0 := by
        intro h0
        subst h0
        simp only [List.get?_cons_zero, Option.some.injEq] at ha
        rw [← ha] at hp
        exact hx hp
      obtain ⟨i', rfl⟩ : ∃ i', i = i' + 1 := ⟨i - 1, by omega⟩
      rw [List.find?_cons_of_neg _ hx]
      exact ih (show xs.get? i' = some a by simpa using ha) hp
        (fun j b hj hb => by
          have := huniq (j + 1) b (by simpa using hj) hb
          omega)

/-! ## Well-formedness facts -/

theorem wf_length {g : GameState} (h : WF g) :
    g.cells.length = (g.size * g.size).toNat := by
  unfold WF wfCells at h
  rw [Bool.and_eq_true] at h
  exact beq_iff_eq.mp h.1

theorem wf_position {g : GameState} (h : WF g) {i : Nat} {cell : Cell}
    (hc : g.cells.get? i = some cell) :
    cell.line = (i : Int).tdiv g.size ∧ cell.column = (i : Int).tmod g.size := by
  unfold WF wfCells at h
  rw [Bool.and_eq_true, List.all_eq_true] at h
  have hi : i < g.cells.length := by
    rw [List.get?_eq_getElem?] at hc
    exact (List.getElem?_eq_some.mp hc).1
  have := h.2 i (List.mem_range.mpr hi)
  rw [hc] at this
  simp only [Bool.and_eq_true, beq_iff_eq] at this
  exact this

theorem isValidPosition_iff (g : GameState) (r c : Int) :
    isValidPosition g r c = true ↔ (0 ≤ r ∧ r < g.size ∧ 0 ≤ c ∧ c < g.size) := by
  unfold isValidPosition
  simp only [ge_iff_le, Bool.and_eq_true, decide_eq_true_eq]
  tauto

theorem getCell_wf {g : GameState} (hwf : WF g) {r c : Int}
    (hv : isValidPosition g r c = true) :
    ∃ cell, getCell g r c = some cell ∧ cell.line = r ∧ cell.column = c ∧
      aliveAt g r c = cell.isAlive := by
  obtain ⟨h0r, hrs, h0c, hcs⟩ := (isValidPosition_iff g r c).mp hv
  have hsz : 0 < g.size := lt_of_le_of_lt h0r hrs
  have hnn : 0 ≤ g.size * r + c := add_nonneg (mul_nonneg hsz.le h0r) h0c
  have hcast : ((g.size * r + c).toNat : Int) = g.size * r + c := Int.toNat_of_nonneg hnn
  have hlt : g.size * r + c < g.size * g.size := by
    calc g.size * r + c < g.size * r + g.size := by omega
      _ = g.size * (r + 1) := by ring
      _ ≤ g.size * g.size := by
          refine mul_le_mul_of_nonneg_left ?_ hsz.le
          omega
  have hidxlt : (g.size * r + c).toNat < g.cells.length := by
    rw [wf_length hwf]
    exact (Int.toNat_lt_toNat (mul_pos hsz hsz)).mpr hlt
  refine ⟨g.cells.get ⟨(g.size * r + c).toNat, hidxlt⟩, List.get?_eq_get hidxlt, ?_⟩
  have hsome : g.cells.get? (g.size * r + c).toNat =
      some (g.cells.get ⟨(g.size * r + c).toNat, hidxlt⟩) := List.get?_eq_get hidxlt
  have hpos := wf_position hwf hsome
  have hline : (g.cells.get ⟨(g.size * r + c).toNat, hidxlt⟩).line = r := by
    rw [hpos.1, hcast, Int.tdiv_eq_ediv hnn hsz.le, add_comm (g.size * r) c,
      Int.add_mul_ediv_left c r (by omega),
      Int.ediv_eq_zero_of_lt h0c hcs]
    omega
  have hcol : (g.cells.get ⟨(g.size * r + c).toNat, hidxlt⟩).column = c := by
    rw [hpos.2, hcast, Int.tmod_eq_emod hnn hsz.le, add_comm (g.size * r) c,
      Int.add_mul_emod_self_left, Int.emod_eq_of_lt h0c hcs]
  have hline' : g.cells[(g.size * r + c).toNat].line = r := by
    simpa only [List.get_eq_getElem] using hline
  have hcol' : g.cells[(g.size * r + c).toNat].column = c := by
    simpa only [List.get_eq_getElem] using hcol
  refine ⟨hline', hcol', ?_⟩
  unfold aliveAt
  rw [find?_eq_of_unique_index hsome (by simp [hline', hcol']) ?_]
  intro j b hj hb
  simp only [Bool.and_eq_true, beq_iff_eq] at hb
  have hjpos := wf_position hwf hj
  have hjnn : (0 : Int) ≤ (j : Int) := Int.natCast_nonneg j
  have hjline : (j : Int) / g.size = r := by
    rw [← Int.tdiv_eq_ediv hjnn hsz.le, ← hjpos.1, hb.1]
  have hjcol : (j : Int) % g.size = c := by
    rw [← Int.tmod_eq_emod hjnn hsz.le, ← hjpos.2, hb.2]
  have hdm := Int.ediv_add_emod (j : Int) g.size
  rw [hjline, hjcol] at hdm
  have : (j : Int) = ((g.size * r + c).toNat : Int) := by rw [hcast, ← hdm]
  exact_mod_cast this

/-- Under well-formedness the source's `countAliveNeighbours` computes
exactly the spec's count of in-bounds alive Moore neighbours looked up by
position in the pre-step grid. -/
theorem countAliveNeighbours_eq_moore {g : GameState} (hwf : WF g) (cell : Cell) :
    countAliveNeighbours g cell = mooreAliveCount g cell := by
  have hbody : ∀ (count : Nat) (off : Int × Int), off ∈ NeighbourOffsets →
      (fun count (off : Int × Int) =>
        let line := cell.line + off.1
        let column := cell.column + off.2
        if isValidPosition g line column then
          match getCell g line column with
          | some neighbourCell => if neighbourCell.isAlive then count + 1 else count
          | none => count
        else count) count off =
      (fun count (off : Int × Int) =>
        if (isValidPosition g (cell.line + off.1) (cell.column + off.2) &&
            aliveAt g (cell.line + off.1) (cell.column + off.2)) then count + 1
        else count) count off := by
    intro count off _
    by_cases hv : isValidPosition g (cell.line + off.1) (cell.column + off.2) = true
    · obtain ⟨nc, hget, _, _, halive⟩ := getCell_wf hwf hv
      simp [hv, hget, halive]
    · simp only [Bool.not_eq_true] at hv
      simp [hv]
  calc countAliveNeighbours g cell
      = NeighbourOffsets.foldl
          (fun count (off : Int × Int) =>
            if (isValidPosition g (cell.line + off.1) (cell.column + off.2) &&
                aliveAt g (cell.line + off.1) (cell.column + off.2)) then count + 1
            else count) 0 :=
        foldl_congr_of_mem _ _ _ hbody 0
    _ = 0 + (NeighbourOffsets.filter fun off =>
          isValidPosition g (cell.line + off.1) (cell.column + off.2) &&
          aliveAt g (cell.line + off.1) (cell.column + off.2)).length :=
        foldl_count_eq_filter_length _ _ 0
    _ = mooreAliveCount g cell := by simp [mooreAliveCount]

/-! ## Per-cell step facts -/

theorem stepCell_fields (g : GameState) (cell : Cell) :
    (stepCell g cell).id = cell.id ∧ (stepCell g cell).line = cell.line ∧
    (stepCell g cell).column = cell.column := by
  unfold stepCell
  cases cell.isAlive
  · simp only [Bool.false_eq_true, if_false]
    split <;> simp
  · simp only [if_true]
    split <;> simp

theorem stepCell_isAlive {g : GameState} (hwf : WF g) (cell : Cell) :
    (stepCell g cell).isAlive = specLifeRule cell.isAlive (mooreAliveCount g cell) := by
  unfold stepCell specLifeRule
  rw [← countAliveNeighbours_eq_moore hwf]
  cases hc : cell.isAlive
  · simp only [hc, Bool.false_eq_true, if_false]
    split <;> simp_all
  · simp only [hc, if_true]
    split
    · simp
    · simp_all

/-! ## Claim theorems -/

/-- Claim C1: for every (well-formed) grid state, one generation advance
increments `generationNumber` by exactly 1 and replaces each cell's alive
flag according to the classic rules applied to the pre-step grid — an
alive cell with in-bounds alive Moore neighbour count `< 2` or `> 3`
dies, a dead cell with count exactly 3 is born, every other cell keeps
its state — with all neighbour counts taken from the same pre-step
snapshot, and every cell's `id`, `line` (row) and `column` preserved. -/
theorem nextGeneration_classic_rules (g : GameState) (hwf : WF g) : ClassicStep g := by
  unfold ClassicStep
  refine ⟨rfl, by simp [nextGeneration], ?_⟩
  intro i h h'
  have hget : (nextGeneration g).1.cells.get ⟨i, h'⟩ = stepCell g (g.cells.get ⟨i, h⟩) := by
    simp [nextGeneration, List.get_eq_getElem, List.getElem_map]
  rw [hget]
  obtain ⟨hid, hline, hcol⟩ := stepCell_fields g (g.cells.get ⟨i, h⟩)
  exact ⟨hid, hline, hcol, stepCell_isAlive hwf _⟩

/-- Witness for C1 at the repository's own 3×3 test pattern. -/
theorem nextGeneration_classic_rules_witness :
    WF game3Pattern ∧ ClassicStep game3Pattern :=
  ⟨by decide, nextGeneration_classic_rules game3Pattern (by decide)⟩

/-- `initCells` builds the fresh grid the spec describes, for any
nonnegative size. -/
theorem initCells_fresh (s : Int) (hs : 0 ≤ s) : FreshGrid s (initCells s) := by
  obtain ⟨n, rfl⟩ : ∃ n : Nat, s = (n : Int) := ⟨s.toNat, (Int.toNat_of_nonneg hs).symm⟩
  refine ⟨by simp [initCells], ?_⟩
  intro i h
  have hget : (initCells (n : Int)).get ⟨i, h⟩ =
      { id := i, line := ((i / n : Nat) : Int), column := ((i % n : Nat) : Int),
        isAlive := false } := by
    unfold initCells
    simp only [List.get_eq_getElem, List.getElem_map, List.getElem_range]
    rfl
  rw [hget]
  exact ⟨rfl, by simp, by simp, rfl⟩

/-- Claim C2: while `isRunning` is true, `reset`, `randomize`,
`toggleCell` and `loadFromJson` each leave the entire engine state
unchanged and emit no notification. -/
theorem running_mutators_are_noops (g : GameState) (hrun : g.isRunning = true) :
    (∀ size?, reset g size? = .ok (g, [])) ∧
    (∀ rnd, randomize g rnd = (g, [])) ∧
    (∀ line column, toggleCell g line column = (g, [])) ∧
    (∀ data, loadFromJson g data = .ok (g, [])) := by
  refine ⟨fun _ => ?_, fun _ => ?_, fun _ _ => ?_, fun _ => ?_⟩
  all_goals simp [reset, randomize, toggleCell, loadFromJson, hrun]

/-- Witness for C2 on a concrete running engine. -/
theorem running_mutators_are_noops_witness :
    runningGame3.isRunning = true ∧
    reset runningGame3 (some 5) = .ok (runningGame3, []) ∧
    randomize runningGame3 (fun _ => true) = (runningGame3, []) ∧
    toggleCell runningGame3 1 1 = (runningGame3, []) ∧
    loadFromJson runningGame3 { sizeField := none, cellsField := none } =
      .ok (runningGame3, []) :=
  ⟨rfl, (running_mutators_are_noops runningGame3 rfl).1 _,
   (running_mutators_are_noops runningGame3 rfl).2.1 _,
   (running_mutators_are_noops runningGame3 rfl).2.2.1 _ _,
   (running_mutators_are_noops runningGame3 rfl).2.2.2 _⟩

/-- Claim C3: for any size in `[MinSize, MaxSize]`, `reset(size)` while
idle — and `reset()` with no argument, using the current size — replaces
the grid with the fresh all-dead `size*size` grid (ids in order,
`row = id / size`, `column = id % size`) and zeroes the generation
counter. -/
theorem reset_builds_fresh_grid (g : GameState) (size? : Option Int)
    (hidle : g.isRunning = false)
    (hmin : MinSize ≤ size?.getD g.size) (hmax : size?.getD g.size ≤ MaxSize) :
    reset g size? =
      .ok ({ g with size := size?.getD g.size,
                    cells := initCells (size?.getD g.size),
                    generationNumber := 0 },
        [GameEvent.resetEvt,
         GameEvent.gridChanged (size?.getD g.size) (initCells (size?.getD g.size))]) ∧
    FreshGrid (size?.getD g.size) (initCells (size?.getD g.size)) := by
  cases size? with
  | none =>
    simp only [Option.getD_none] at hmin hmax ⊢
    refine ⟨by simp [reset, hidle], initCells_fresh _ ?_⟩
    unfold MinSize at hmin
    omega
  | some s =>
    simp only [Option.getD_some] at hmin hmax ⊢
    have h1 : ¬ (s < MinSize) := not_lt.mpr hmin
    have h2 : ¬ (s > MaxSize) := not_lt.mpr hmax
    refine ⟨by simp [reset, hidle, h1, h2], initCells_fresh _ ?_⟩
    unfold MinSize at hmin
    omega

/-- Witness for C3 at a concrete idle engine and size 4. -/
theorem reset_builds_fresh_grid_witness :
    game3.isRunning = false ∧
    MinSize ≤ (some (4 : Int)).getD game3.size ∧
    (some (4 : Int)).getD game3.size ≤ MaxSize ∧
    FreshGrid ((some (4 : Int)).getD game3.size)
      (initCells ((some (4 : Int)).getD game3.size)) :=
  ⟨by decide, by decide, by decide,
    (reset_builds_fresh_grid game3 (some 4) (by decide) (by decide) (by decide)).2⟩

/-- Claim C4 counterexample: `reset(0)` while idle does *not* raise
`InvalidArgument` even though `0 < MinSize` — the truthiness guard
(`size && ...`) skips the bounds check for 0. -/
theorem reset_out_of_bounds_counterexample :
    (reset game3 (some 0)).isOk = true := by decide

/-- Claim C4 (amended with `size ≠ 0`): for every *nonzero* integer size
with `size < MinSize` or `size > MaxSize`, `reset(size)` while idle
returns `InvalidArgument`; the `Except.error` return carries no new
state, so the caller's prior state is untouched. -/
theorem reset_rejects_out_of_bounds (g : GameState) (s : Int)
    (hidle : g.isRunning = false) (hnz : s ≠ 0)
    (hout : s < MinSize ∨ MaxSize < s) :
    reset g (some s) = .error .invalidArgument := by
  simp [reset, hidle]
  refine ⟨hnz, fun hle => ?_⟩
  rcases hout with h | h
  · exact absurd h (not_lt.mpr hle)
  · exact h

/-- Witness for the amended C4 at size 2000. -/
theorem reset_rejects_out_of_bounds_witness :
    game3.isRunning = false ∧ (2000 : Int) ≠ 0 ∧
    ((2000 : Int) < MinSize ∨ MaxSize < (2000 : Int)) ∧
    reset game3 (some 2000) = .error .invalidArgument :=
  ⟨by decide, by decide, by decide,
    reset_rejects_out_of_bounds game3 2000 (by decide) (by decide) (by decide)⟩

/-- Claim C5 counterexample: on an idle 3×3 engine, `reset(0)` yields
size 0 and an *empty* grid with generation 0 — not an all-dead grid of
the unchanged current size 3. -/
theorem reset_zero_counterexample :
    (reset game3 (some 0)).toOption.map
        (fun p => (p.1.size, p.1.cells.length, p.1.generationNumber)) =
      some (0, 0, 0) ∧
    game3.size = 3 := by decide

/-- Claim C5 (amended): `reset(0)` while idle raises nothing — the
truthiness guard skips the bounds check — but because `0 ?? current`
keeps 0 (nullish coalescing only replaces null/undefined), the size
becomes 0 and the grid becomes the empty cell list, with
`generationNumber` set to 0; the prior grid contents are lost. -/
theorem reset_zero_empties_grid (g : GameState) (hidle : g.isRunning = false) :
    reset g (some 0) =
      .ok ({ g with size := 0, cells := [], generationNumber := 0 },
        [GameEvent.resetEvt, GameEvent.gridChanged 0 []]) := by
  simp [reset, hidle, initCells]

/-- Witness for the amended C5. -/
theorem reset_zero_empties_grid_witness :
    game3.isRunning = false ∧
    reset game3 (some 0) =
      .ok ({ game3 with size := 0, cells := [], generationNumber := 0 },
        [GameEvent.resetEvt, GameEvent.gridChanged 0 []]) :=
  ⟨by decide, reset_zero_empties_grid game3 (by decide)⟩

theorem set_get_self {α : Type} (l : List α) (i : Nat) (h : i < l.length) :
    l.set i (l.get ⟨i, h⟩) = l := by
  apply List.ext_getElem?
  intro n
  rw [List.getElem?_set]
  by_cases hn : i = n
  · subst hn
    simp [List.getElem?_eq_getElem h, h, List.get_eq_getElem]
  · simp [hn]

/-- Evaluation of `toggleCell` on an idle state at a valid position whose
cell lookup succeeds. -/
theorem toggleCell_eq_of_valid (g : GameState) (r c : Int) (cell : Cell)
    (hidle : g.isRunning = false) (hv : isValidPosition g r c = true)
    (hget : getCell g r c = some cell) :
    toggleCell g r c =
      ({ g with cells := g.cells.set (g.size * r + c).toNat ({ cell with isAlive := !cell.isAlive }) }, [GameEvent.cellChanged ({ cell with isAlive := !cell.isAlive })]) := by
  unfold toggleCell
  simp [hidle, hv, hget]

/-- Claim C6: while idle on a well-formed grid, `isValidPosition` is true
iff `0 ≤ row < size` and `0 ≤ column < size`; `toggleCell` at an invalid
position changes nothing and emits no `CellChanged`; at a valid position
it flips exactly that cell's alive flag (preserving its other fields and
every other cell) and emits `CellChanged`, so toggling the same valid
cell twice restores the entire state. -/
theorem toggleCell_spec (g : GameState) (hwf : WF g) (hidle : g.isRunning = false) :
    (∀ line column, isValidPosition g line column = true ↔
        (0 ≤ line ∧ line < g.size ∧ 0 ≤ column ∧ column < g.size)) ∧
    (∀ line column, isValidPosition g line column = false →
        toggleCell g line column = (g, [])) ∧
    (∀ line column, isValidPosition g line column = true →
        (toggleCell g line column).1.cells.length = g.cells.length ∧
        (∀ j, j ≠ (g.size * line + column).toNat →
          (toggleCell g line column).1.cells.get? j = g.cells.get? j) ∧
        (∀ cell, g.cells.get? (g.size * line + column).toNat = some cell →
          (toggleCell g line column).1.cells.get? (g.size * line + column).toNat =
            some ({ cell with isAlive := !cell.isAlive }) ∧
          (toggleCell g line column).2 =
            [GameEvent.cellChanged ({ cell with isAlive := !cell.isAlive })]) ∧
        (toggleCell (toggleCell g line column).1 line column).1 = g) := by
  refine ⟨isValidPosition_iff g, ?_, ?_⟩
  · intro r c hv
    simp [toggleCell, hidle, hv]
  · intro r c hv
    obtain ⟨cell, hget, hline, hcol, _⟩ := getCell_wf hwf hv
    have hjlt : (g.size * r + c).toNat < g.cells.length := by
      have h1 : g.cells.get? (g.size * r + c).toNat = some cell := hget
      rw [List.get?_eq_getElem?] at h1
      exact (List.getElem?_eq_some.mp h1).1
    have hcellval : g.cells[(g.size * r + c).toNat] = cell := by
      have h1 : g.cells.get? (g.size * r + c).toNat = some cell := hget
      rw [List.get?_eq_getElem?, List.getElem?_eq_getElem hjlt] at h1
      simpa using h1
    have htog := toggleCell_eq_of_valid g r c cell hidle hv hget
    refine ⟨?_, ?_, ?_, ?_⟩
    · rw [htog]
      simp
    · intro j hne
      rw [htog]
      simp [List.get?_eq_getElem?, List.getElem?_set, Ne.symm hne]
    · intro cell0 hcell0
      have hc0 : cell0 = cell := by
        have h2 : g.cells.get? (g.size * r + c).toNat = some cell := hget
        rw [hcell0] at h2
        exact Option.some.inj h2
      subst hc0
      constructor
      · rw [htog]
        simp [List.get?_eq_getElem?, List.getElem?_set, hjlt]
      · rw [htog]
    · have h2get : getCell { g with cells := g.cells.set (g.size * r + c).toNat ({ cell with isAlive := !cell.isAlive }) } r c = some ({ cell with isAlive := !cell.isAlive }) := by
        show (g.cells.set (g.size * r + c).toNat ({ cell with isAlive := !cell.isAlive })).get? (g.size * r + c).toNat = some ({ cell with isAlive := !cell.isAlive })
        rw [List.get?_eq_getElem?, List.getElem?_set]
        simp [hjlt]
      have htog2 := toggleCell_eq_of_valid
        ({ g with cells := g.cells.set (g.size * r + c).toNat ({ cell with isAlive := !cell.isAlive }) })
        r c ({ cell with isAlive := !cell.isAlive }) hidle hv h2get
      rw [htog]
      show (toggleCell ({ g with cells := g.cells.set (g.size * r + c).toNat ({ cell with isAlive := !cell.isAlive }) }) r c).1 = g
      rw [htog2]
      show ({ g with cells := (g.cells.set (g.size * r + c).toNat ({ cell with isAlive := !cell.isAlive })).set (g.size * r + c).toNat ({ cell with isAlive := !(!cell.isAlive) }) } : GameState) = g
      rw [List.set_set, Bool.not_not]
      have hcelleta : ({ cell with isAlive := cell.isAlive } : Cell) = cell := rfl
      rw [hcelleta, ← hcellval]
      have hss := set_get_self g.cells (g.size * r + c).toNat hjlt
      simp only [List.get_eq_getElem] at hss
      rw [hss]

/-- Witness for C6: double toggle at `(2,1)` on the 3×3 pattern restores
the state. -/
theorem toggleCell_spec_witness :
    WF game3Pattern ∧ game3Pattern.isRunning = false ∧
    (toggleCell (toggleCell game3Pattern 2 1).1 2 1).1 = game3Pattern :=
  ⟨by decide, by decide,
    ((toggleCell_spec game3Pattern (by decide) (by decide)).2.2 2 1 (by decide)).2.2.2⟩

/-- Claim C7: loading the snapshot produced by `exportToJson` while idle
reproduces the same size and the identical cells (hence identical
per-cell alive flags) and sets `generationNumber` to 0. -/
theorem export_load_roundtrip (g : GameState) (hidle : g.isRunning = false) :
    loadFromJson g (exportToJson g) =
      .ok ({ g with generationNumber := 0 },
        [GameEvent.resetEvt, GameEvent.gridChanged g.size g.cells]) := by
  simp [loadFromJson, exportToJson, hidle]

/-- Witness for C7 at the 3×3 pattern. -/
theorem export_load_roundtrip_witness :
    game3Pattern.isRunning = false ∧
    loadFromJson game3Pattern (exportToJson game3Pattern) =
      .ok ({ game3Pattern with generationNumber := 0 },
        [GameEvent.resetEvt,
         GameEvent.gridChanged game3Pattern.size game3Pattern.cells]) :=
  ⟨by decide, export_load_roundtrip game3Pattern (by decide)⟩

/-- Claim C8: `changeSpeed(v)` errors with `InvalidArgument` exactly when
`v < MinSpeed` or `v > MaxSpeed` (the error return leaves the state with
the caller), otherwise sets the speed and emits `SpeedChanged`; it has no
`isRunning` guard, so this holds in both lifecycle states (the theorem
quantifies over every state, running or idle). -/
theorem changeSpeed_spec (g : GameState) (v : Rat) :
    (changeSpeed g v = .error .invalidArgument ↔ (v < MinSpeed ∨ MaxSpeed < v)) ∧
    (MinSpeed ≤ v → v ≤ MaxSpeed →
      changeSpeed g v = .ok ({ g with speed := v }, [GameEvent.speedChanged v])) := by
  constructor
  · constructor
    · intro h
      by_contra hc
      push_neg at hc
      have h1 : ¬ (v < MinSpeed) := not_lt.mpr hc.1
      have h2 : ¬ (v > MaxSpeed) := not_lt.mpr hc.2
      simp [changeSpeed, h1, h2] at h
    · intro h
      rcases h with h | h
      · simp [changeSpeed, h]
      · simp [changeSpeed, h]
  · intro h1 h2
    have h1' : ¬ (v < MinSpeed) := not_lt.mpr h1
    have h2' : ¬ (v > MaxSpeed) := not_lt.mpr h2
    simp [changeSpeed, h1', h2']

/-- Witness for C8 on a *running* engine at speed 5. -/
theorem changeSpeed_spec_witness :
    MinSpeed ≤ (5 : Rat) ∧ (5 : Rat) ≤ MaxSpeed ∧
    changeSpeed runningGame3 5 =
      .ok ({ runningGame3 with speed := 5 }, [GameEvent.speedChanged 5]) :=
  ⟨by decide, by decide, (changeSpeed_spec runningGame3 5).2 (by decide) (by decide)⟩

/-- Claim C9: while idle, `loadFromJson` errors with `InvalidFormat`
exactly when the snapshot misses its `size` or `cells` field, leaving the
state with the caller; when both are present it adopts the snapshot's
size and cells verbatim — any integer size, any cell list, with no
bounds re-validation — and zeroes the generation counter. -/
theorem loadFromJson_spec (g : GameState) (data : SnapshotData)
    (hidle : g.isRunning = false) :
    (loadFromJson g data = .error .invalidFormat ↔
      (data.sizeField = none ∨ data.cellsField = none)) ∧
    (∀ s cs, data.sizeField = some s → data.cellsField = some cs →
      loadFromJson g data =
        .ok ({ g with size := s, cells := cs, generationNumber := 0 },
          [GameEvent.resetEvt, GameEvent.gridChanged s cs])) := by
  obtain ⟨sf, cf⟩ := data
  cases sf <;> cases cf <;> simp [loadFromJson, hidle]

/-- Witness for C9: a snapshot with a missing `size` field is rejected,
and one with an out-of-bounds size 2000 is accepted unchecked. -/
theorem loadFromJson_spec_witness :
    game3.isRunning = false ∧
    loadFromJson game3 { sizeField := some 2000, cellsField := some [] } =
      .ok ({ game3 with size := 2000, cells := [], generationNumber := 0 },
        [GameEvent.resetEvt, GameEvent.gridChanged 2000 []]) :=
  ⟨by decide,
    (loadFromJson_spec game3 { sizeField := some 2000, cellsField := some [] }
      (by decide)).2 2000 [] rfl rfl⟩

/-- Claim C10: `start()` while running changes nothing; from idle it sets
`isRunning` and immediately performs exactly one generation advance
(arming the timer for the next one), so `start()` then `stop()` on a
fresh idle engine leaves `generationNumber` at exactly 1, disarms the
pending timer, and the scheduled callback (`fireTimer`) then never runs
another advance. -/
theorem start_stop_one_generation :
    (∀ g : GameState, g.isRunning = true → start g = (g, [])) ∧
    (∀ g : GameState, g.isRunning = false → g.generationNumber = 0 →
      (start g).1.isRunning = true ∧
      (start g).1.generationNumber = 1 ∧
      (start g).1.timerArmed = true ∧
      (stop (start g).1).1.generationNumber = 1 ∧
      (stop (start g).1).1.isRunning = false ∧
      (stop (start g).1).1.timerArmed = false ∧
      fireTimer (stop (start g).1).1 = ((stop (start g).1).1, [])) := by
  constructor
  · intro g h
    simp [start, h]
  · intro g h h0
    simp [start, stop, fireTimer, nextGeneration, h, h0]

/-- Witness for C10 on the fresh 3×3 engine and on a running engine. -/
theorem start_stop_one_generation_witness :
    (runningGame3.isRunning = true ∧ start runningGame3 = (runningGame3, [])) ∧
    (game3.isRunning = false ∧ game3.generationNumber = 0 ∧
      (stop (start game3).1).1.generationNumber = 1 ∧
      fireTimer (stop (start game3).1).1 = ((stop (start game3).1).1, [])) :=
  ⟨⟨rfl, start_stop_one_generation.1 runningGame3 rfl⟩,
   ⟨rfl, rfl,
    (start_stop_one_generation.2 game3 rfl rfl).2.2.2.1,
    (start_stop_one_generation.2 game3 rfl rfl).2.2.2.2.2.2⟩⟩

end Game
